import Mathlib

/-!
Verification of the OOXML style-merging tool and markdown block parser of
`src/tools/docxfile.py` (a Dify plugin tool that converts tagged pseudo-markdown
into a `.docx` whose styles come from a user-supplied template document).

The Python source is shallowly embedded below:

* pure string manipulation (Python's `str.strip`, `str.startswith`, `str.split`,
  `'\n'.join`, f-string decimal formatting) is modelled by executable functions
  over `List Char` / `String`;
* the three regular expressions of the source (`>(.*?)</div>`,
  `<thead>(.*?)</thead>`-style region searches, and the `findall` cell/row
  scans) are all of the shape "literal, non-greedy gap, literal" with
  `re.DOTALL`; for such patterns `re.search` is equivalent to "first occurrence
  of the opening literal, then first occurrence of the closing literal after
  it", and `re.findall` is the non-overlapping left-to-right iteration of that
  search.  They are modelled by `findFirstBetween` / `findAllBetween`;
* XML trees touched by the merger ([Content_Types].xml overrides,
  document.xml.rels relationship records) are modelled as lists of records,
  exactly the data the source reads and writes;
* the filesystem (working directories of the merge) is modelled as a list of
  paths for the claims that are about file existence;
* `python-docx` objects are modelled at the granularity the source uses them:
  a table cell records its text, centering, boldness, font size and shading;
  a paragraph records its style name and run text.  Exceptions (`IndexError`
  from tuple indexing, `KeyError` from a missing style name) are modelled with
  `Except`.
-/

/-! ## Python string primitives -/

/-- Whitespace recognised by Python's `str.strip()` (the ASCII part; the
Unicode-only space characters cannot appear in the tag prefixes the parser
tests for, so they are immaterial to the claims). -/
def pyIsWs (c : Char) : Bool :=
  c = ' ' || c = '\t' || c = '\n' || c = '\r' || c = '\x0b' || c = '\x0c'

/-- Remove leading and trailing whitespace from a character list. -/
def trimChars (cs : List Char) : List Char :=
  ((cs.dropWhile pyIsWs).reverse.dropWhile pyIsWs).reverse

/-- Model of Python `str.strip()`. -/
def pyStrip (s : String) : String := ⟨trimChars s.data⟩

/-- Model of Python `s.startswith(p)`: `strStarts p s` is true when `p` is a
prefix of `s`. -/
def strStarts (p s : String) : Bool := p.data.isPrefixOf s.data

/-- Model of Python `str.split('\n')` on the underlying characters.
`splitNl` always returns at least one (possibly empty) segment, exactly like
Python: `''.split('\n') == ['']`. -/
def splitNl : List Char → List (List Char)
  | [] => [[]]
  | c :: rest =>
    match splitNl rest with
    | [] => [[]]
    | s :: ss => if c = '\n' then [] :: s :: ss else (c :: s) :: ss

/-- The line list the source builds with `markdown_content.split('\n')`. -/
def mdLines (markdown_content : String) : List String :=
  (splitNl markdown_content.data).map (fun cs => String.mk cs)

/-- Model of Python `'\n'.join(lines)` (source: `table_text = '\n'.join(table_content)`). -/
def joinNl : List String → String
  | [] => ""
  | [s] => s
  | s :: rest => s ++ "\n" ++ joinNl rest

/-! ## Literal / non-greedy-gap / literal regular expressions

`splitAtPat pat s` finds the first occurrence of the literal `pat` in `s` and
returns the text before it and the text after it. -/

def splitAtPat (pat : List Char) : List Char → Option (List Char × List Char)
  | [] => if pat.isPrefixOf ([] : List Char) then some ([], []) else none
  | c :: rest =>
    if pat.isPrefixOf (c :: rest) then some ([], (c :: rest).drop pat.length)
    else
      match splitAtPat pat rest with
      | some (a, b) => some (c :: a, b)
      | none => none

/-- Like `splitAtPat` but for an alternation of two literals (the source's
`</(?:th|td)>` and `<(?:th|td)>`); at each position the first alternative is
tried first, as a regex engine does. -/
def splitAtPat2 (p1 p2 : List Char) : List Char → Option (List Char × List Char)
  | [] =>
    if p1.isPrefixOf ([] : List Char) then some ([], [])
    else if p2.isPrefixOf ([] : List Char) then some ([], [])
    else none
  | c :: rest =>
    if p1.isPrefixOf (c :: rest) then some ([], (c :: rest).drop p1.length)
    else if p2.isPrefixOf (c :: rest) then some ([], (c :: rest).drop p2.length)
    else
      match splitAtPat2 p1 p2 rest with
      | some (a, b) => some (c :: a, b)
      | none => none

/-- Model of `re.search(open + '(.*?)' + close, s, re.DOTALL)`: the captured
group and the remainder after the closing literal, or `none` when there is no
match.  (Leftmost-start with a lazy gap: first occurrence of `op`, then the
first occurrence of `cl` after it; if no `cl` follows the first `op` then none
follows any later `op` either, so the whole pattern fails.) -/
def findFirstBetween (op cl : List Char) (s : List Char) : Option (List Char × List Char) :=
  match splitAtPat op s with
  | none => none
  | some (_, afterOp) =>
    match splitAtPat cl afterOp with
    | none => none
    | some (content, afterCl) => some (content, afterCl)

/-- `findFirstBetween` for alternated opening and closing literals. -/
def findFirstBetween2 (op1 op2 cl1 cl2 : List Char) (s : List Char) :
    Option (List Char × List Char) :=
  match splitAtPat2 op1 op2 s with
  | none => none
  | some (_, afterOp) =>
    match splitAtPat2 cl1 cl2 afterOp with
    | none => none
    | some (content, afterCl) => some (content, afterCl)

/-- Fuelled iteration for `re.findall`: scan non-overlapping matches left to
right.  Each successful match consumes at least the opening and closing
literals, so fuel `s.length` is always sufficient. -/
def findAllBetweenAux (op cl : List Char) : Nat → List Char → List (List Char)
  | 0, _ => []
  | f + 1, s =>
    match findFirstBetween op cl s with
    | none => []
    | some (content, rest) => content :: findAllBetweenAux op cl f rest

/-- Model of `re.findall(open + '(.*?)' + close, s, re.DOTALL)`. -/
def findAllBetween (op cl : List Char) (s : List Char) : List (List Char) :=
  findAllBetweenAux op cl s.length s

/-- Fuelled `re.findall` for the `<(?:th|td)>(.*?)</(?:th|td)>` pattern. -/
def findAllBetweenAux2 (op1 op2 cl1 cl2 : List Char) : Nat → List Char → List (List Char)
  | 0, _ => []
  | f + 1, s =>
    match findFirstBetween2 op1 op2 cl1 cl2 s with
    | none => []
    | some (content, rest) => content :: findAllBetweenAux2 op1 op2 cl1 cl2 f rest

/-- Model of `re.findall('<(?:th|td)>(.*?)</(?:th|td)>', s, re.DOTALL)`. -/
def findAllBetween2 (op1 op2 cl1 cl2 : List Char) (s : List Char) : List (List Char) :=
  findAllBetweenAux2 op1 op2 cl1 cl2 s.length s

/-- Model of `re.search(r'>(.*?)</div>', line)` returning group 1 (source lines
329, 336, 343, 350, 357). -/
def searchCloseDiv (line : String) : Option String :=
  match findFirstBetween ['>'] "</div>".data line.data with
  | none => none
  | some (content, _) => some ⟨content⟩

/-! ## Table-region extraction (source lines 374–396) -/

/-- Extraction of `table_data` from the joined table region text: a `<thead>`
region contributes one header row of its `<th>` cells (when at least one cell
is found), then each `<tr>` of the `<tbody>` region contributes one body row of
its `<th>`/`<td>` cells (rows with no cells are dropped).  All cell text is
stripped. -/
def extract_table_data (table_text : String) : List (List String) :=
  (match findFirstBetween "<thead>".data "</thead>".data table_text.data with
   | none => []
   | some (header_content, _) =>
     match findAllBetween "<th>".data "</th>".data header_content with
     | [] => []
     | c :: cs => [(c :: cs).map (fun cell => String.mk (trimChars cell))]) ++
  (match findFirstBetween "<tbody>".data "</tbody>".data table_text.data with
   | none => []
   | some (body_content, _) =>
     (findAllBetween "<tr>".data "</tr>".data body_content).filterMap (fun row =>
       match findAllBetween2 "<th>".data "<td>".data "</th>".data "</td>".data row with
       | [] => none
       | c :: cs => some ((c :: cs).map (fun cell => String.mk (trimChars cell)))))

/-! ## Decimal rendering of relationship numbers (Python `f"rId{next_num}"`) -/

/-- The character of a single decimal digit. -/
def digitChar (d : Nat) : Char := Char.ofNat (48 + d)

/-- Fuelled decimal rendering (most significant digit first); fuel `n + 1` is
always enough. -/
def natDecAux : Nat → Nat → List Char
  | 0, _ => []
  | f + 1, n =>
    if n < 10 then [digitChar n] else natDecAux f (n / 10) ++ [digitChar (n % 10)]

/-- Value of a decimal digit string, the left inverse used to prove that
decimal rendering is injective. -/
def digitsVal (cs : List Char) : Nat :=
  cs.foldl (fun a c => a * 10 + (c.toNat - 48)) 0

/-- Model of the Python f-string `f"rId{n}"`. -/
def ridStr (n : Nat) : String := ⟨'r' :: 'I' :: 'd' :: natDecAux (n + 1) n⟩

/-! ## Relationship table (document.xml.rels), source lines 86–110 -/

/-- One `<Relationship>` element as the source reads it: its `Id`, `Type` and
`Target` attributes.  A missing `Id` attribute is modelled by the empty
string (the source filters falsy ids out of `existing_ids`). -/
structure Relationship where
  rid : String
  relType : String
  target : String
deriving DecidableEq

/-- The xpath test `r:Relationship[@Type="rel_type" and @Target="target"]`. -/
def relMatches (rel_type target : String) (r : Relationship) : Bool :=
  r.relType == rel_type && r.target == target

/-- `existing_ids = set(el.get("Id") for el in ... if el.get("Id"))` (line 98);
falsy (empty) ids are excluded. -/
def existingIds (rels : List Relationship) : List String :=
  (rels.map (fun r => r.rid)).filter (fun s => s ≠ "")

/-- The id-search loop of lines 99–103: starting from `n`, increment while
`rId{n}` is taken.  Structurally recursive on fuel; `ids.length + 1` fuel is
enough to reach a free id. -/
def freshNumGo (ids : List String) : Nat → Nat → Nat
  | 0, n => n
  | f + 1, n => if ridStr n ∈ ids then freshNumGo ids f (n + 1) else n

/-- The fresh identifier chosen for a new relationship (`next_num` starts at 1). -/
def freshNum (ids : List String) : Nat := freshNumGo ids (ids.length + 1) 1

/-- Model of `ensure_relationship` (lines 86–110): if a relationship with the
given type and target already exists the table is written back unchanged;
otherwise a new `<Relationship>` with the first free `rId{n}` is appended. -/
def ensure_relationship (rels : List Relationship) (rel_type target : String) : List Relationship :=
  if rels.any (relMatches rel_type target) then rels
  else rels ++ [{ rid := ridStr (freshNum (existingIds rels)),
                  relType := rel_type, target := target }]

def REL_TYPE_NUMBERING : String :=
  "http://schemas.openxmlformats.org/officeDocument/2006/relationships/numbering"

def REL_TYPE_STYLES : String :=
  "http://schemas.openxmlformats.org/officeDocument/2006/relationships/styles"

def REL_TYPE_THEME : String :=
  "http://schemas.openxmlformats.org/officeDocument/2006/relationships/theme"

/-! ## Content-type manifest ([Content_Types].xml), source lines 64–73 -/

/-- One `<Override>` element of the content-type manifest. -/
structure Override where
  partName : String
  contentType : String
deriving DecidableEq

/-- Model of `ensure_content_type_override`: the xpath
`ct:Override[@PartName="partname"]` matches on the part name only; when no
such element exists a new override is appended, otherwise nothing changes. -/
def ensure_content_type_override (ovs : List Override) (partname content_type : String) :
    List Override :=
  if ovs.any (fun o => o.partName == partname) then ovs
  else ovs ++ [{ partName := partname, contentType := content_type }]

/-- Number of Override entries for a given part name. -/
def overrideCount (ovs : List Override) (partname : String) : Nat :=
  (ovs.filter (fun o => o.partName == partname)).length

/-! ## Style part copying and document relationships (source lines 25–34, 113–148) -/

def PARTS_TO_COPY : List String :=
  ["word/styles.xml",
   "word/stylesWithEffects.xml",
   "word/theme/theme1.xml",
   "word/fontTable.xml",
   "word/numbering.xml",
   "word/settings.xml",
   "word/_rels/styles.xml.rels",
   "word/_rels/numbering.xml.rels"]

/-- Existence-level model of `safe_copy` (lines 113–120): when the template's
directory contains the relative path, the blank directory afterwards contains
it too; otherwise nothing changes.  Directories are modelled as lists of the
relative paths they contain. -/
def safe_copy (t_dir b_dir : List String) (rel_path : String) : List String :=
  if rel_path ∈ t_dir then rel_path :: b_dir else b_dir

/-- The copy loop of lines 134–135: `for part in PARTS_TO_COPY: safe_copy(...)`. -/
def copyParts (t_dir b_dir : List String) : List String :=
  PARTS_TO_COPY.foldl (fun b p => safe_copy t_dir b p) b_dir

/-- The relationship-repair step of lines 144–148: styles and theme
relationships are ensured unconditionally; the numbering relationship is
ensured exactly when `word/numbering.xml` exists in the blank working
directory (after the copy step). -/
def ensure_document_relationships (b_dir : List String) (rels : List Relationship) : List Relationship :=
  if "word/numbering.xml" ∈ b_dir then
    ensure_relationship
      (ensure_relationship (ensure_relationship rels REL_TYPE_STYLES "styles.xml")
        REL_TYPE_THEME "theme/theme1.xml")
      REL_TYPE_NUMBERING "numbering.xml"
  else
    ensure_relationship (ensure_relationship rels REL_TYPE_STYLES "styles.xml")
      REL_TYPE_THEME "theme/theme1.xml"

/-- Whether a relationship table contains some relationship of the given type. -/
def hasRelType (rels : List Relationship) (rel_type : String) : Bool :=
  rels.any (fun r => r.relType == rel_type)

/-! ## Working directories of the merge (source lines 123–155)

The claims about cleanup are about which paths exist on disk, so the
filesystem is a list of paths.  The steps between the two extractions and the
final `rmtree` calls (part copying, manifest repair, relationship repair,
re-zipping) can raise — e.g. `shutil.copy2` raises `IsADirectoryError` when a
template zip stores `word/styles.xml` as a directory entry — and are abstracted
as a state transformer `middle` that returns the new filesystem and an optional
exception. -/

def TPL_DIR : String := "_tmp_tpl_unzip"

def BLANK_DIR : String := "_tmp_blank_unzip"

/-- Existence-level model of `unzip_docx` (lines 47–52): wipe the directory if
present, recreate it (and fill it with the archive's contents). -/
def unzip_docx (dir : String) (fs : List String) : List String :=
  dir :: fs.filter (fun p => p ≠ dir)

/-- Existence-level model of `shutil.rmtree(dir)`. -/
def rmtree_dir (dir : String) (fs : List String) : List String :=
  fs.filter (fun p => p ≠ dir)

/-- Control-flow model of `copy_styles_and_dependencies_from_template`
(lines 123–155): extract template and blank into the two fixed working
directories, run the middle steps (copying, manifest repair, relationship
repair, re-zip), and only then — with no `try`/`finally` in the source — remove
the two working directories.  When `middle` raises (returns an error), the
exception propagates immediately and the `rmtree` lines are never reached. -/
def copy_styles_and_dependencies_run (fs : List String)
    (middle : List String → List String × Option String) : List String × Option String :=
  match middle (unzip_docx BLANK_DIR (unzip_docx TPL_DIR fs)) with
  | (fs', some e) => (fs', some e)
  | (fs', none) => (rmtree_dir BLANK_DIR (rmtree_dir TPL_DIR fs'), none)

/-! ## Table cells and their population (source lines 399–432) -/

/-- A table cell at the granularity the source manipulates it: its text, the
centering of its paragraphs, boldness of its runs, the font size applied to its
runs, and the shading fill injected into its properties. -/
structure Cell where
  text : String
  centered : Bool
  bold : Bool
  fontSz : Option Nat
  shade : Option String
deriving DecidableEq

instance : Inhabited Cell := ⟨⟨"", false, false, none, none⟩⟩

/-- A freshly created cell of a new table row (one empty paragraph, no runs). -/
def defaultCell : Cell := ⟨"", false, false, none, none⟩

/-- The body-row per-cell work of lines 428–432: set the text, center every
paragraph, set the runs to 10pt; boldness and shading are untouched. -/
def setBodyCell (c : Cell) (v : String) : Cell :=
  { c with text := v, centered := true, fontSz := some 10 }

/-- The header per-cell work of lines 414–422: set the text, center, bold,
10pt, and append the `w:shd` fill `5B9BD5` to the cell properties. -/
def setHdrCell (c : Cell) (v : String) : Cell :=
  { c with text := v, centered := true, bold := true, fontSz := some 10,
           shade := some "5B9BD5" }

/-- The population loop `for j, cell in enumerate(row): row_cells[j]...`
(lines 413–422 and 427–432): write values positionally starting at index `j`;
indexing past the end of the cell tuple raises `IndexError`. -/
def writeRow (setCell : Cell → String → Cell) (cells : List Cell) :
    List String → Nat → Except String (List Cell)
  | [], _ => .ok cells
  | v :: vs, j =>
    if h : j < cells.length then
      writeRow setCell (cells.set j (setCell (cells.get ⟨j, h⟩) v)) vs (j + 1)
    else .error "IndexError: list index out of range"

/-- Population of one appended body row (`row_cells = table.add_row().cells`,
line 426): the new row has exactly the table's column count of default cells. -/
def populateBodyRow (cols : Nat) (vals : List String) : Except String (List Cell) :=
  writeRow setBodyCell (List.replicate cols defaultCell) vals 0

/-- Sequential population of all body rows (lines 425–432); the first failing
row aborts the build. -/
def populateBodyRows (cols : Nat) : List (List String) → Except String (List (List Cell))
  | [] => .ok []
  | r :: rs =>
    match populateBodyRow cols r with
    | .error e => .error e
    | .ok cs =>
      match populateBodyRows cols rs with
      | .error e => .error e
      | .ok css => .ok (cs :: css)

/-- Construction of the whole table node from nonempty `table_data`
(lines 399–432): a one-row table with `len(table_data[0])` columns is created,
its header row populated from `table_data[0]`, and one row appended and
populated per remaining row. -/
def buildTableNode (hdr : List String) (body : List (List String)) :
    Except String (List (List Cell)) :=
  match writeRow setHdrCell (List.replicate hdr.length defaultCell) hdr 0 with
  | .error e => .error e
  | .ok hcells =>
    match populateBodyRows hdr.length body with
    | .error e => .error e
    | .ok bcells => .ok (hcells :: bcells)

/-! ## The line-walking parser / document builder (source lines 322–439) -/

/-- A node appended to the target document: a styled paragraph with one run, or
a table given by its populated cells. -/
inductive Node where
  | para (style : String) (text : String)
  | table (cells : List (List Cell))
deriving DecidableEq

def STYLE_TITLE : String := "A标题"

def STYLE_BODY : String := "A正文"

def STYLE_ONE : String := "A一级标题"

def STYLE_TWO : String := "A二级标题"

def STYLE_THREE : String := "A三级标题"

def divTitleOpen : String := "<div class=\"title\""

def divTextOpen : String := "<div class=\"text\""

def divOneOpen : String := "<div class=\"onetitle\""

def divTwoOpen : String := "<div class=\"twotitle\""

def divThreeOpen : String := "<div class=\"threetitle\""

def tableOpen : String := "<table>"

def tableClose : String := "</table>"

def closeAngle : String := "</"

/-- Prepend a node to the rest of a build that may already have failed. -/
def consNode (n : Node) (r : Except String (List Node)) : Except String (List Node) :=
  match r with
  | .error e => .error e
  | .ok ns => .ok (n :: ns)

/-- `p = target_doc.add_paragraph(); p.style = name; p.add_run(t)`: assigning a
style name absent from the merged document raises `KeyError` in `python-docx`,
aborting the build. -/
def withPara (styles : List String) (name t : String) (r : Except String (List Node)) :
    Except String (List Node) :=
  if styles.contains name then consNode (.para name t) r
  else .error "KeyError: no style with name"

/-- The table-capture loop of lines 365–371: accumulate raw lines until one
whose stripped form starts with `</table>` (that line itself is skipped by the
outer `i += 1`) or until input is exhausted.  Returns (captured lines,
remaining lines). -/
def splitAtTableEnd : List String → List String × List String
  | [] => ([], [])
  | l :: rest =>
    if strStarts tableClose (pyStrip l) then ([], rest)
    else ((l :: (splitAtTableEnd rest).1), (splitAtTableEnd rest).2)

/-- The main `while i < len(lines)` walk (lines 324–439), fuelled by the number
of lines (each iteration consumes at least one line, so `lines.length` fuel is
exact).  Branch order and conditions follow the source's `if`/`elif` chain on
the stripped current line. -/
def processLinesF (styles : List String) : Nat → List String → Except String (List Node)
  | 0, _ => .ok []
  | _ + 1, [] => .ok []
  | f + 1, l :: rest =>
    if strStarts divTitleOpen (pyStrip l) then
      match searchCloseDiv (pyStrip l) with
      | some t => withPara styles STYLE_TITLE t (processLinesF styles f rest)
      | none => processLinesF styles f rest
    else if strStarts divTextOpen (pyStrip l) then
      match searchCloseDiv (pyStrip l) with
      | some t => withPara styles STYLE_BODY t (processLinesF styles f rest)
      | none => processLinesF styles f rest
    else if strStarts divOneOpen (pyStrip l) then
      match searchCloseDiv (pyStrip l) with
      | some t => withPara styles STYLE_ONE t (processLinesF styles f rest)
      | none => processLinesF styles f rest
    else if strStarts divTwoOpen (pyStrip l) then
      match searchCloseDiv (pyStrip l) with
      | some t => withPara styles STYLE_TWO t (processLinesF styles f rest)
      | none => processLinesF styles f rest
    else if strStarts divThreeOpen (pyStrip l) then
      match searchCloseDiv (pyStrip l) with
      | some t => withPara styles STYLE_THREE t (processLinesF styles f rest)
      | none => processLinesF styles f rest
    else if strStarts tableOpen (pyStrip l) then
      match extract_table_data (joinNl (splitAtTableEnd rest).1) with
      | [] => processLinesF styles f (splitAtTableEnd rest).2
      | hdr :: body =>
        match buildTableNode hdr body with
        | .error e => .error e
        | .ok t => consNode (.table t) (processLinesF styles f (splitAtTableEnd rest).2)
    else if !(pyStrip l == "") && !(strStarts closeAngle (pyStrip l)) then
      withPara styles STYLE_BODY (pyStrip l) (processLinesF styles f rest)
    else processLinesF styles f rest

/-- The parser/builder on a list of input lines. -/
def processLines (styles : List String) (lines : List String) : Except String (List Node) :=
  processLinesF styles lines.length lines

/-! ## The tool invocation (source lines 306–506) -/

/-- A message yielded by the tool: a text message or a blob message carrying
the finished document (represented by its node list). -/
inductive Msg where
  | text (s : String)
  | blob (doc : List Node)
deriving DecidableEq

/-- The template input after byte extraction: whether the bytes form a valid
ZIP archive, and if so which entry names it contains. -/
structure TemplateInput where
  isZip : Bool
  entries : List String

/-- `required_files` of line 486. -/
def requiredFiles : List String := ["[Content_Types].xml", "word/document.xml"]

/-- Control-flow model of `generate_docx_with_template` (lines 306–457): the
merge (whose internals are modelled separately above, abstracted here to its
outcome) and the parse/build run inside a `try` whose `except` only prints and
falls through, so any merge or build exception makes the function return
Python `None`; on success the complete serialized document is returned. -/
def generate_docx_with_template (mergeOutcome : Except String Unit) (styles : List String)
    (markdown_content : String) : Option (List Node) :=
  match mergeOutcome with
  | .error _ => none
  | .ok _ =>
    match processLines styles (mdLines markdown_content) with
    | .error _ => none
    | .ok ns => some ns

/-- Modelled from the spec: the host SDK's blob-message constructor
(`self.create_blob_message`, not part of this repository) packages "a single
binary blob" (spec §6); its payload field holds bytes, so constructing it with
the absent (`None`) result of a failed generation raises a validation error
instead of producing a blob message. -/
def create_blob_message : Option (List Node) → Except String Msg
  | some doc => .ok (.blob doc)
  | none => .error "blob must be bytes"

/-- The `_invoke` body (lines 461–506): validate the template bytes (ZIP-ness,
then presence of the two required parts), generate, and yield a single blob
message; any exception escaping the `try` is converted into a single text
message by the final `except`. -/
def invoke_tool (tpl : TemplateInput) (mergeOutcome : Except String Unit)
    (styles : List String) (markdown_content : String) : List Msg :=
  if tpl.isZip = false then
    [.text "生成带模板样式的docx时出错: 模板文件不是有效的ZIP压缩文件（可能不是DOCX）"]
  else if (requiredFiles.all fun f => tpl.entries.contains f) = false then
    [.text "生成带模板样式的docx时出错: 模板文件不是有效的DOCX格式"]
  else
    match create_blob_message (generate_docx_with_template mergeOutcome styles markdown_content) with
    | .ok m => [m]
    | .error e => [.text ("生成带模板样式的docx时出错: " ++ e)]

/-! ## Decimal rendering: injectivity -/

/-- Value of a single decimal digit character. -/
lemma digitChar_toNat (d : Nat) (h : d < 10) : (digitChar d).toNat = 48 + d := by
  interval_cases d <;> decide

/-- Appending a digit multiplies the value by ten and adds the digit. -/
lemma digitsVal_append_digit (cs : List Char) (c : Char) :
    digitsVal (cs ++ [c]) = digitsVal cs * 10 + (c.toNat - 48) := by
  simp [digitsVal, List.foldl_append]

/-- Decimal rendering round-trips through `digitsVal` whenever the fuel is
sufficient. -/
lemma digitsVal_natDecAux : ∀ f n, n < f → digitsVal (natDecAux f n) = n := by
  intro f
  induction f with
  | zero => intro n h; omega
  | succ f ih =>
    intro n h
    by_cases h10 : n < 10
    · rw [natDecAux, if_pos h10]
      have hc := digitChar_toNat n h10
      simp [digitsVal]
      omega
    · rw [natDecAux, if_neg h10, digitsVal_append_digit]
      have h1 : n / 10 < f := by omega
      rw [ih (n / 10) h1]
      have hc := digitChar_toNat (n % 10) (by omega)
      omega

/-- Python's `f"rId{n}"` is injective in `n`. -/
lemma ridStr_inj : Function.Injective ridStr := by
  intro m n h
  have hd : natDecAux (m + 1) m = natDecAux (n + 1) n := by
    have h2 := congrArg String.data h
    simpa [ridStr] using h2
  have h1 : digitsVal (natDecAux (m + 1) m) = m := digitsVal_natDecAux (m + 1) m (by omega)
  have h2 := digitsVal_natDecAux (n + 1) n (by omega)
  rw [hd, h2] at h1
  omega

/-- A rendered identifier is never the empty string. -/
lemma ridStr_ne_empty (n : Nat) : ridStr n ≠ "" := by
  intro h
  have h2 := congrArg String.data h
  simp [ridStr] at h2

/-! ## The fresh-identifier search -/

/-- The search never goes below its starting point. -/
lemma freshNumGo_ge (ids : List String) : ∀ f n, n ≤ freshNumGo ids f n := by
  intro f
  induction f with
  | zero => intro n; simp [freshNumGo]
  | succ f ih =>
    intro n
    rw [freshNumGo]
    split
    · exact le_trans (by omega) (ih (n + 1))
    · exact le_refl n

/-- Every identifier skipped over by the search is taken. -/
lemma freshNumGo_min (ids : List String) :
    ∀ f n m, n ≤ m → m < freshNumGo ids f n → ridStr m ∈ ids := by
  intro f
  induction f with
  | zero =>
    intro n m h1 h2
    simp [freshNumGo] at h2
    omega
  | succ f ih =>
    intro n m h1 h2
    rw [freshNumGo] at h2
    by_cases hin : ridStr n ∈ ids
    · rw [if_pos hin] at h2
      rcases Nat.eq_or_lt_of_le h1 with he | hl
      · subst he; exact hin
      · exact ih (n + 1) m hl h2
    · rw [if_neg hin] at h2
      omega

/-- With a free identifier within reach of the fuel, the search lands on a
free identifier. -/
lemma freshNumGo_free (ids : List String) :
    ∀ f n, (∃ m, n ≤ m ∧ m < n + f ∧ ridStr m ∉ ids) →
      ridStr (freshNumGo ids f n) ∉ ids := by
  intro f
  induction f with
  | zero =>
    intro n h
    obtain ⟨m, h1, h2, _⟩ := h
    omega
  | succ f ih =>
    intro n hex
    rw [freshNumGo]
    by_cases hin : ridStr n ∈ ids
    · rw [if_pos hin]
      apply ih
      obtain ⟨m, h1, h2, h3⟩ := hex
      refine ⟨m, ?_, by omega, h3⟩
      rcases Nat.eq_or_lt_of_le h1 with he | hl
      · subst he; exact absurd hin h3
      · omega
    · rw [if_neg hin]
      exact hin

/-- Pigeonhole: among the candidates `rId1 … rId(len+1)` at least one is not in
the id list. -/
lemma exists_free_rid (ids : List String) :
    ∃ m, 1 ≤ m ∧ m < 1 + (ids.length + 1) ∧ ridStr m ∉ ids := by
  by_contra hcon
  push_neg at hcon
  have hinj : Function.Injective (fun k => ridStr (k + 1)) := by
    intro a b hab
    have h2 := ridStr_inj hab
    omega
  have hsub : ((List.range (ids.length + 1)).map (fun k => ridStr (k + 1))) ⊆ ids := by
    intro x hx
    simp only [List.mem_map, List.mem_range] at hx
    obtain ⟨k, hk, rfl⟩ := hx
    exact hcon (k + 1) (by omega) (by omega)
  have hnd : ((List.range (ids.length + 1)).map (fun k => ridStr (k + 1))).Nodup :=
    (List.nodup_range (ids.length + 1)).map hinj
  have hle := (hnd.subperm hsub).length_le
  simp at hle

/-- Combined specification of `freshNum`. -/
lemma freshNum_spec (ids : List String) :
    ridStr (freshNum ids) ∉ ids ∧ 1 ≤ freshNum ids ∧
      ∀ m, 1 ≤ m → m < freshNum ids → ridStr m ∈ ids := by
  refine ⟨?_, freshNumGo_ge ids _ 1, fun m h1 h2 => freshNumGo_min ids _ 1 m h1 h2⟩
  exact freshNumGo_free ids _ 1 (exists_free_rid ids)

/-- Membership of a rendered identifier in the filtered id list is membership
among the table's ids. -/
lemma mem_existingIds_iff (rels : List Relationship) (n : Nat) :
    ridStr n ∈ existingIds rels ↔ ridStr n ∈ rels.map (fun r => r.rid) := by
  simp [existingIds, List.mem_filter, ridStr_ne_empty n]

/-- Claim C2: when `ensure_relationship` adds a new relationship (the
(type, target) pair is not yet present), the new element is appended after the
unchanged existing records and carries the identifier `rIdN` for the lowest
positive `N` whose `rIdN` is unused; every lower positive candidate is already
taken. -/
theorem ensure_relationship_lowest_fresh_id (rels : List Relationship)
    (rel_type target : String) (h : rels.any (relMatches rel_type target) = false) :
    ∃ N, 1 ≤ N ∧
      ensure_relationship rels rel_type target =
        rels ++ [{ rid := ridStr N, relType := rel_type, target := target }] ∧
      ridStr N ∉ rels.map (fun r => r.rid) ∧
      ∀ m, 1 ≤ m → m < N → ridStr m ∈ rels.map (fun r => r.rid) := by
  obtain ⟨hfree, hge, hmin⟩ := freshNum_spec (existingIds rels)
  refine ⟨freshNum (existingIds rels), hge, ?_, ?_, ?_⟩
  · rw [ensure_relationship, if_neg (by simp [h])]
  · rw [← mem_existingIds_iff]
    exact hfree
  · intro m h1 h2
    rw [← mem_existingIds_iff]
    exact hmin m h1 h2

/-- Witness for C2 at the spec's own example: existing identifiers
`{rId1, rId2, rId4}`; the added relationship gets `rId3`, and the theorem's
hypothesis holds at this input. -/
theorem ensure_relationship_lowest_fresh_id_witness :
    (∃ N, 1 ≤ N ∧
      ensure_relationship
          ([⟨"rId1", "t1", "g1"⟩, ⟨"rId2", "t2", "g2"⟩, ⟨"rId4", "t3", "g3"⟩] :
            List Relationship) "T" "G" =
        ([⟨"rId1", "t1", "g1"⟩, ⟨"rId2", "t2", "g2"⟩, ⟨"rId4", "t3", "g3"⟩] :
            List Relationship) ++
          [{ rid := ridStr N, relType := "T", target := "G" }] ∧
      ridStr N ∉ List.map (fun r => r.rid)
          ([⟨"rId1", "t1", "g1"⟩, ⟨"rId2", "t2", "g2"⟩, ⟨"rId4", "t3", "g3"⟩] :
            List Relationship) ∧
      ∀ m, 1 ≤ m → m < N → ridStr m ∈ List.map (fun r => r.rid)
          ([⟨"rId1", "t1", "g1"⟩, ⟨"rId2", "t2", "g2"⟩, ⟨"rId4", "t3", "g3"⟩] :
            List Relationship)) ∧
    ensure_relationship
        ([⟨"rId1", "t1", "g1"⟩, ⟨"rId2", "t2", "g2"⟩, ⟨"rId4", "t3", "g3"⟩] :
          List Relationship) "T" "G" =
      ([⟨"rId1", "t1", "g1"⟩, ⟨"rId2", "t2", "g2"⟩, ⟨"rId4", "t3", "g3"⟩,
        ⟨"rId3", "T", "G"⟩] : List Relationship) :=
  ⟨ensure_relationship_lowest_fresh_id _ "T" "G" (by decide), by decide⟩

/-! ## Content-type override lemmas (C5) -/

/-- After `ensure_content_type_override` an override for the part name exists. -/
lemma ensure_content_type_override_mem (ovs : List Override) (p t : String) :
    (ensure_content_type_override ovs p t).any (fun o => o.partName == p) = true := by
  rw [ensure_content_type_override]
  split
  · assumption
  · simp [List.any_append]

/-- An already-present override short-circuits the step. -/
lemma ensure_content_type_override_noop (ovs : List Override) (p t : String)
    (h : ovs.any (fun o => o.partName == p) = true) :
    ensure_content_type_override ovs p t = ovs := by
  rw [ensure_content_type_override, if_pos h]

/-- Claim C5: running the override-ensure step twice for the same (path, type)
pair leaves exactly one Override entry for that path (whenever the manifest was
well-formed to begin with, i.e. had at most one entry for it, which holds for
every real manifest since part names are manifest keys); an already-present
override for that exact path is left unchanged; and the step is idempotent. -/
theorem ensure_content_type_override_idem (ovs : List Override) (p t : String) :
    (overrideCount ovs p ≤ 1 →
      overrideCount
        (ensure_content_type_override (ensure_content_type_override ovs p t) p t) p = 1) ∧
    (ovs.any (fun o => o.partName == p) = true →
      ensure_content_type_override ovs p t = ovs) ∧
    ensure_content_type_override (ensure_content_type_override ovs p t) p t =
      ensure_content_type_override ovs p t := by
  refine ⟨?_, ensure_content_type_override_noop ovs p t,
    ensure_content_type_override_noop _ p t (ensure_content_type_override_mem ovs p t)⟩
  intro hle
  rw [ensure_content_type_override_noop _ p t (ensure_content_type_override_mem ovs p t)]
  by_cases h : ovs.any (fun o => o.partName == p) = true
  · rw [ensure_content_type_override_noop ovs p t h]
    obtain ⟨o, ho, hbo⟩ := List.any_eq_true.mp h
    have hmem : o ∈ ovs.filter (fun o => o.partName == p) := List.mem_filter.mpr ⟨ho, hbo⟩
    have hpos : 0 < overrideCount ovs p := by
      rw [overrideCount]
      exact List.length_pos.mpr (List.ne_nil_of_mem hmem)
    omega
  · rw [ensure_content_type_override, if_neg h]
    have hall : ∀ a ∈ ovs, ¬(a.partName == p) = true := by
      intro a ha hba
      exact h (List.any_eq_true.mpr ⟨a, ha, hba⟩)
    have hc0 : ovs.filter (fun o => o.partName == p) = [] :=
      List.filter_eq_nil_iff.mpr hall
    rw [overrideCount, List.filter_append, hc0]
    simp

/-- Witness for C5: the two inner implications at concrete manifests. -/
theorem ensure_content_type_override_idem_witness :
    overrideCount
      (ensure_content_type_override
        (ensure_content_type_override [] "/word/styles.xml" "ct") "/word/styles.xml" "ct")
      "/word/styles.xml" = 1 ∧
    ensure_content_type_override ([⟨"/word/styles.xml", "ct"⟩] : List Override)
        "/word/styles.xml" "other" = ([⟨"/word/styles.xml", "ct"⟩] : List Override) :=
  ⟨(ensure_content_type_override_idem [] "/word/styles.xml" "ct").1 (by decide),
   (ensure_content_type_override_idem _ "/word/styles.xml" "other").2.1 (by decide)⟩

/-! ## Relationship-step lemmas (C7) -/

/-- `ensure_relationship` leaves a relationship of the ensured type present. -/
lemma hasRelType_ensure_self (rels : List Relationship) (t g : String) :
    hasRelType (ensure_relationship rels t g) t = true := by
  rw [ensure_relationship]
  split
  · rename_i h
    obtain ⟨r, hr, hm⟩ := List.any_eq_true.mp h
    simp only [relMatches, Bool.and_eq_true] at hm
    exact List.any_eq_true.mpr ⟨r, hr, hm.1⟩
  · simp [hasRelType, List.any_append]

/-- `ensure_relationship` never removes relationships, so type presence is
monotone. -/
lemma hasRelType_ensure_mono (rels : List Relationship) (t g t' : String)
    (h : hasRelType rels t' = true) :
    hasRelType (ensure_relationship rels t g) t' = true := by
  rw [ensure_relationship]
  split
  · exact h
  · simp only [hasRelType, List.any_append] at h ⊢
    simp [h]

/-- Ensuring a relationship of a different type does not change whether a type
is present. -/
lemma hasRelType_ensure_of_ne (rels : List Relationship) (t g t' : String)
    (hne : t ≠ t') :
    hasRelType (ensure_relationship rels t g) t' = hasRelType rels t' := by
  rw [ensure_relationship]
  split
  · rfl
  · simp only [hasRelType, List.any_append, List.any_cons, List.any_nil]
    have : (t == t') = false := by simp [hne]
    simp [this]

/-- Membership in the blank directory after the copy loop: a path is there
exactly when it was already there or is a style part present in the template. -/
lemma mem_copyParts_iff (t_dir b_dir : List String) (x : String) :
    x ∈ copyParts t_dir b_dir ↔ x ∈ b_dir ∨ (x ∈ PARTS_TO_COPY ∧ x ∈ t_dir) := by
  suffices h : ∀ (ps : List String) (b : List String),
      x ∈ ps.foldl (fun acc p => safe_copy t_dir acc p) b ↔
        x ∈ b ∨ (x ∈ ps ∧ x ∈ t_dir) by
    exact h PARTS_TO_COPY b_dir
  intro ps
  induction ps with
  | nil => intro b; simp
  | cons p ps ih =>
    intro b
    simp only [List.foldl_cons]
    rw [ih]
    by_cases hp : p ∈ t_dir
    · simp only [safe_copy, if_pos hp, List.mem_cons, List.mem_cons]
      constructor
      · rintro ((rfl | hb) | hps)
        · exact Or.inr ⟨Or.inl rfl, hp⟩
        · exact Or.inl hb
        · exact Or.inr ⟨Or.inr hps.1, hps.2⟩
      · rintro (hb | ⟨(rfl | hps), ht⟩)
        · exact Or.inl (Or.inr hb)
        · exact Or.inl (Or.inl rfl)
        · exact Or.inr ⟨hps, ht⟩
    · simp only [safe_copy, if_neg hp, List.mem_cons]
      constructor
      · rintro (hb | hps)
        · exact Or.inl hb
        · exact Or.inr ⟨Or.inr hps.1, hps.2⟩
      · rintro (hb | ⟨(rfl | hps), ht⟩)
        · exact Or.inl hb
        · exact absurd ht hp
        · exact Or.inr ⟨hps, ht⟩

/-- Claim C7: the merge step ensures styles and theme relationships
unconditionally; assuming the blank's baseline table has no numbering
relationship yet, a numbering relationship is present afterwards exactly when
`word/numbering.xml` exists in the blank working directory after the copy
step; in particular, when neither the template nor the blank baseline has a
numbering part, the merged table has no numbering relationship. -/
theorem ensure_document_relationships_spec (t_dir b_dir : List String)
    (rels : List Relationship) :
    hasRelType (ensure_document_relationships (copyParts t_dir b_dir) rels)
        REL_TYPE_STYLES = true ∧
    hasRelType (ensure_document_relationships (copyParts t_dir b_dir) rels)
        REL_TYPE_THEME = true ∧
    (hasRelType rels REL_TYPE_NUMBERING = false →
      (hasRelType (ensure_document_relationships (copyParts t_dir b_dir) rels)
          REL_TYPE_NUMBERING = true ↔ "word/numbering.xml" ∈ copyParts t_dir b_dir)) ∧
    ("word/numbering.xml" ∉ t_dir → "word/numbering.xml" ∉ b_dir →
      hasRelType rels REL_TYPE_NUMBERING = false →
      hasRelType (ensure_document_relationships (copyParts t_dir b_dir) rels)
          REL_TYPE_NUMBERING = false) := by
  have hchain : ∀ rs : List Relationship,
      hasRelType rs REL_TYPE_NUMBERING = false →
      hasRelType
        (ensure_relationship (ensure_relationship rs REL_TYPE_STYLES "styles.xml")
          REL_TYPE_THEME "theme/theme1.xml") REL_TYPE_NUMBERING = false := by
    intro rs h
    rw [hasRelType_ensure_of_ne _ _ _ _ (by decide),
        hasRelType_ensure_of_ne _ _ _ _ (by decide)]
    exact h
  refine ⟨?_, ?_, ?_, ?_⟩
  · rw [ensure_document_relationships]
    split
    · exact hasRelType_ensure_mono _ _ _ _
        (hasRelType_ensure_mono _ _ _ _ (hasRelType_ensure_self rels _ _))
    · exact hasRelType_ensure_mono _ _ _ _ (hasRelType_ensure_self rels _ _)
  · rw [ensure_document_relationships]
    split
    · exact hasRelType_ensure_mono _ _ _ _ (hasRelType_ensure_self _ _ _)
    · exact hasRelType_ensure_self _ _ _
  · intro h0
    rw [ensure_document_relationships]
    split
    · rename_i hmem
      simp only [hasRelType_ensure_self]
      simp [hmem]
    · rename_i hmem
      rw [hchain rels h0]
      simp [hmem]
  · intro ht hb h0
    have hnot : "word/numbering.xml" ∉ copyParts t_dir b_dir := by
      rw [mem_copyParts_iff]
      rintro (h | ⟨_, h⟩)
      · exact hb h
      · exact ht h
    rw [ensure_document_relationships, if_neg hnot]
    exact hchain rels h0

/-- Witness for C7: a template carrying only `word/styles.xml` over an empty
blank directory and an empty relationship table yields styles and theme
relationships but no numbering relationship. -/
theorem ensure_document_relationships_spec_witness :
    hasRelType (ensure_document_relationships (copyParts ["word/styles.xml"] []) [])
        REL_TYPE_STYLES = true ∧
    (hasRelType (ensure_document_relationships (copyParts ["word/styles.xml"] []) [])
        REL_TYPE_NUMBERING = true ↔
      "word/numbering.xml" ∈ copyParts ["word/styles.xml"] []) ∧
    hasRelType (ensure_document_relationships (copyParts ["word/styles.xml"] []) [])
        REL_TYPE_NUMBERING = false :=
  ⟨(ensure_document_relationships_spec ["word/styles.xml"] [] []).1,
   (ensure_document_relationships_spec ["word/styles.xml"] [] []).2.2.1 rfl,
   (ensure_document_relationships_spec ["word/styles.xml"] [] []).2.2.2
     (by decide) (by decide) rfl⟩

/-! ## Working-directory cleanup (C4) -/

/-- Amended C4: `copy_styles_and_dependencies_from_template` removes both
working directories only on the success path; when one of the middle steps
raises, the exception propagates and the function returns without reaching the
`rmtree` lines, so whatever the failing step left on disk (in particular both
freshly extracted working directories, for any middle step that does not
itself remove them) stays there. -/
theorem copy_styles_cleanup_on_success_only (fs : List String)
    (middle : List String → List String × Option String) :
    ((middle (unzip_docx BLANK_DIR (unzip_docx TPL_DIR fs))).2 = none →
      TPL_DIR ∉ (copy_styles_and_dependencies_run fs middle).1 ∧
      BLANK_DIR ∉ (copy_styles_and_dependencies_run fs middle).1 ∧
      (copy_styles_and_dependencies_run fs middle).2 = none) ∧
    (∀ e, (middle (unzip_docx BLANK_DIR (unzip_docx TPL_DIR fs))).2 = some e →
      copy_styles_and_dependencies_run fs middle =
        middle (unzip_docx BLANK_DIR (unzip_docx TPL_DIR fs))) := by
  rcases hmid : middle (unzip_docx BLANK_DIR (unzip_docx TPL_DIR fs)) with ⟨fs', err⟩
  cases err with
  | none =>
    constructor
    · intro _
      rw [copy_styles_and_dependencies_run, hmid]
      refine ⟨?_, ?_, rfl⟩ <;> simp [rmtree_dir, List.mem_filter]
    · intro e he
      simp at he
  | some e' =>
    constructor
    · intro hn
      simp at hn
    · intro e he
      rw [copy_styles_and_dependencies_run, hmid]

/-- Counterexample to C4 as stated: a run in which a middle step raises (for
example `shutil.copy2` hitting a directory entry named `word/styles.xml` inside
the template archive) terminates with the exception while both working
directories are still on disk. -/
theorem copy_styles_cleanup_counterexample :
    (copy_styles_and_dependencies_run [] (fun fs => (fs, some "IsADirectoryError"))).2 =
        some "IsADirectoryError" ∧
    TPL_DIR ∈ (copy_styles_and_dependencies_run []
        (fun fs => (fs, some "IsADirectoryError"))).1 ∧
    BLANK_DIR ∈ (copy_styles_and_dependencies_run []
        (fun fs => (fs, some "IsADirectoryError"))).1 := by
  refine ⟨rfl, ?_, ?_⟩ <;> simp [copy_styles_and_dependencies_run, unzip_docx, TPL_DIR, BLANK_DIR]

/-- Witness for the amended C4 at concrete middles: a succeeding middle leaves
no working directory behind, and a failing middle returns the middle's exact
state and error. -/
theorem copy_styles_cleanup_on_success_only_witness :
    (TPL_DIR ∉ (copy_styles_and_dependencies_run [] (fun fs => (fs, none))).1 ∧
     BLANK_DIR ∉ (copy_styles_and_dependencies_run [] (fun fs => (fs, none))).1 ∧
     (copy_styles_and_dependencies_run [] (fun fs => (fs, none))).2 = none) ∧
    copy_styles_and_dependencies_run [] (fun fs => (fs, some "boom")) =
      (unzip_docx BLANK_DIR (unzip_docx TPL_DIR []), some "boom") :=
  ⟨(copy_styles_cleanup_on_success_only [] (fun fs => (fs, none))).1 rfl,
   (copy_styles_cleanup_on_success_only [] (fun fs => (fs, some "boom"))).2 "boom" rfl⟩

/-! ## Row-population lemmas (C3, C8) -/

/-- `getD` at an index other than the one being set is unchanged. -/
lemma getD_set_ne {α : Type} :
    ∀ (l : List α) (i j : Nat) (a d : α), i ≠ j → (l.set i a).getD j d = l.getD j d
  | [], _, _, _, _, _ => rfl
  | _ :: _, 0, 0, _, _, h => absurd rfl h
  | _ :: _, 0, _ + 1, _, _, _ => rfl
  | _ :: _, _ + 1, 0, _, _, _ => rfl
  | _ :: xs, i + 1, j + 1, a, d, h => getD_set_ne xs i j a d (by omega)

/-- `getD` at the index being set yields the new value. -/
lemma getD_set_self {α : Type} :
    ∀ (l : List α) (i : Nat) (a d : α), i < l.length → (l.set i a).getD i d = a
  | [], i, _, _, h => absurd h (by simp)
  | _ :: _, 0, _, _, _ => rfl
  | _ :: xs, i + 1, a, d, h => getD_set_self xs i a d (by simpa using h)

/-- `getD` over `replicate` with the replicated element as the default is that
element at every index. -/
lemma getD_replicate_self {α : Type} (d : α) :
    ∀ (n i : Nat), (List.replicate n d).getD i d = d
  | 0, _ => rfl
  | _ + 1, 0 => rfl
  | n + 1, i + 1 => getD_replicate_self d n i

/-- Success shape of the population loop: when all written indices are in
bounds the loop succeeds, the length is preserved, positions outside the
written window are untouched, and every written position holds the setter
applied to the original cell and the corresponding value. -/
lemma writeRow_ok (setCell : Cell → String → Cell) :
    ∀ (vals : List String) (cells : List Cell) (j : Nat),
      j + vals.length ≤ cells.length →
      ∃ cs, writeRow setCell cells vals j = .ok cs ∧
        cs.length = cells.length ∧
        (∀ i, (i < j ∨ j + vals.length ≤ i) →
          cs.getD i defaultCell = cells.getD i defaultCell) ∧
        ∀ k, k < vals.length →
          cs.getD (j + k) defaultCell =
            setCell (cells.getD (j + k) defaultCell) (vals.getD k "") := by
  intro vals
  induction vals with
  | nil =>
    intro cells j h
    exact ⟨cells, rfl, rfl, fun i _ => rfl, fun k hk => absurd hk (by simp)⟩
  | cons v vs ih =>
    intro cells j h
    have hj : j < cells.length := by
      simp only [List.length_cons] at h
      omega
    rw [writeRow, dif_pos hj]
    obtain ⟨cs, h1, h2, h3, h4⟩ :=
      ih (cells.set j (setCell (cells.get ⟨j, hj⟩) v)) (j + 1)
        (by simp only [List.length_set]; simp only [List.length_cons] at h; omega)
    have hget : cells.get ⟨j, hj⟩ = cells.getD j defaultCell := by
      rw [List.getD_eq_getElem _ _ hj]
      rfl
    refine ⟨cs, h1, by simpa using h2, ?_, ?_⟩
    · intro i hi
      have hi' : i < j + 1 ∨ (j + 1) + vs.length ≤ i := by
        simp only [List.length_cons] at hi
        omega
      rcases hi with hlt | hge
      · rw [h3 i hi', getD_set_ne _ _ _ _ _ (by omega)]
      · rw [h3 i hi', getD_set_ne _ _ _ _ _ (by simp only [List.length_cons] at hge; omega)]
    · intro k hk
      cases k with
      | zero =>
        have := h3 j (Or.inl (by omega))
        rw [Nat.add_zero, this, getD_set_self _ _ _ _ hj, hget]
        rfl
      | succ k' =>
        have hk' : k' < vs.length := by simpa using hk
        have harith : j + (k' + 1) = (j + 1) + k' := by omega
        rw [harith]
        rw [h4 k' hk', getD_set_ne _ _ _ _ _ (by omega)]
        rfl

/-- Failure shape of the population loop: as soon as some value would be
written past the end of the cell tuple, the loop raises `IndexError`. -/
lemma writeRow_err (setCell : Cell → String → Cell) :
    ∀ (vals : List String) (cells : List Cell) (j : Nat),
      vals ≠ [] → cells.length < j + vals.length →
      writeRow setCell cells vals j = .error "IndexError: list index out of range" := by
  intro vals
  induction vals with
  | nil =>
    intro cells j h _
    exact absurd rfl h
  | cons v vs ih =>
    intro cells j _ hlen
    rw [writeRow]
    by_cases hj : j < cells.length
    · rw [dif_pos hj]
      apply ih
      · intro hnil
        subst hnil
        simp only [List.length_cons, List.length_nil] at hlen
        omega
      · simp only [List.length_set]
        simp only [List.length_cons] at hlen
        omega
    · rw [dif_neg hj]

/-- Amended C3: populating a body row with more values than the table has
columns does not silently truncate; the loop raises `IndexError` when it
reaches index `cols` (the whole build is aborted by this exception). -/
theorem populate_long_row_index_error (cols : Nat) (vals : List String)
    (h : cols < vals.length) :
    populateBodyRow cols vals = .error "IndexError: list index out of range" := by
  rw [populateBodyRow]
  apply writeRow_err
  · intro hnil
    subst hnil
    simp at h
  · simpa using h

/-- Witness for the amended C3 at the concrete two-column table with a
three-cell body row. -/
theorem populate_long_row_index_error_witness :
    populateBodyRow 2 ["1", "2", "3"] = .error "IndexError: list index out of range" :=
  populate_long_row_index_error 2 ["1", "2", "3"] (by decide)

/-- Counterexample to C3 as stated ("no error is raised"): the full parse and
build of a table whose body row is longer than its two-column header aborts
with `IndexError` instead of truncating. -/
theorem populate_long_row_counterexample :
    processLines []
      ["<table>",
       "<thead><th>A</th><th>B</th></thead>",
       "<tbody><tr><td>1</td><td>2</td><td>3</td></tr></tbody>",
       "</table>"] = .error "IndexError: list index out of range" := by
  rfl

/-- Claim C8: a body row with fewer cells than the header's column count is
written positionally; the populated prefix carries the row's values (centered,
10pt, not bold, unshaded) and the trailing cells stay in their default empty
state, with no error. -/
theorem populate_short_row_defaults (cols : Nat) (vals : List String)
    (h : vals.length < cols) :
    ∃ cs, populateBodyRow cols vals = .ok cs ∧ cs.length = cols ∧
      (∀ j, j < vals.length →
        cs.getD j defaultCell = setBodyCell defaultCell (vals.getD j "")) ∧
      ∀ j, vals.length ≤ j → j < cols → cs.getD j defaultCell = defaultCell := by
  obtain ⟨cs, h1, h2, h3, h4⟩ :=
    writeRow_ok setBodyCell vals (List.replicate cols defaultCell) 0
      (by simp; omega)
  refine ⟨cs, h1, by simpa using h2, ?_, ?_⟩
  · intro j hj
    have := h4 j hj
    rw [Nat.zero_add] at this
    rw [this, getD_replicate_self]
  · intro j hj1 hj2
    have := h3 j (Or.inr (by omega))
    rw [this, getD_replicate_self]

/-- Witness for C8: a three-column row populated from a single value. -/
theorem populate_short_row_defaults_witness :
    ∃ cs, populateBodyRow 3 ["a"] = .ok cs ∧ cs.length = 3 ∧
      (∀ j, j < (["a"] : List String).length →
        cs.getD j defaultCell = setBodyCell defaultCell ((["a"] : List String).getD j "")) ∧
      ∀ j, (["a"] : List String).length ≤ j → j < 3 → cs.getD j defaultCell = defaultCell :=
  populate_short_row_defaults 3 ["a"] (by decide)

/-! ## Parser lemmas (C9, C10) -/

/-- The lines remaining after table capture are no more numerous than the
captured-from lines. -/
lemma splitAtTableEnd_len : ∀ (ls : List String), (splitAtTableEnd ls).2.length ≤ ls.length := by
  intro ls
  induction ls with
  | nil => simp [splitAtTableEnd]
  | cons l rest ih =>
    rw [splitAtTableEnd]
    split
    · simp
    · simpa using Nat.le_trans ih (by omega)

/-- The fuelled walker is fuel-irrelevant above the line count. -/
lemma processLinesF_fuel (styles : List String) :
    ∀ f g ls, ls.length ≤ f → ls.length ≤ g →
      processLinesF styles f ls = processLinesF styles g ls := by
  intro f
  induction f with
  | zero =>
    intro g ls hf _
    have hnil : ls = [] := List.eq_nil_of_length_eq_zero (by omega)
    subst hnil
    cases g <;> rfl
  | succ f ih =>
    intro g ls hf hg
    cases ls with
    | nil => cases g <;> rfl
    | cons l rest =>
      cases g with
      | zero => simp at hg
      | succ g' =>
        have h1 : processLinesF styles f rest = processLinesF styles g' rest :=
          ih g' rest (by simp only [List.length_cons] at hf; omega)
            (by simp only [List.length_cons] at hg; omega)
        have h2 : processLinesF styles f (splitAtTableEnd rest).2 =
            processLinesF styles g' (splitAtTableEnd rest).2 :=
          ih g' _
            (le_trans (splitAtTableEnd_len rest)
              (by simp only [List.length_cons] at hf; omega))
            (le_trans (splitAtTableEnd_len rest)
              (by simp only [List.length_cons] at hg; omega))
        simp only [processLinesF]
        rw [h1, h2]

/-- Two incomparable literals cannot both be prefixes of the same string. -/
lemma strStarts_false_of_excl (p q s : String)
    (h1 : p.data.isPrefixOf q.data = false) (h2 : q.data.isPrefixOf p.data = false)
    (hq : strStarts q s = true) : strStarts p s = false := by
  by_contra hp
  rw [Bool.not_eq_false] at hp
  have hps : p.data <+: s.data := by
    rwa [strStarts, List.isPrefixOf_iff_prefix] at hp
  have hqs : q.data <+: s.data := by
    rwa [strStarts, List.isPrefixOf_iff_prefix] at hq
  rcases List.prefix_or_prefix_of_prefix hps hqs with h | h
  · rw [← List.isPrefixOf_iff_prefix] at h
    rw [h] at h1
    exact absurd h1 (by simp)
  · rw [← List.isPrefixOf_iff_prefix] at h
    rw [h] at h2
    exact absurd h2 (by simp)

/-- Claim C10: a line whose stripped form starts with one of the five
recognised div openers but contains no `>(.*?)</div>` match is consumed without
emitting any block — it neither becomes a title/text paragraph nor falls
through to the untagged-prose branch. -/
theorem div_opener_without_close_skipped (styles : List String) (l : String)
    (rest : List String)
    (hopen : strStarts divTitleOpen (pyStrip l) = true ∨
             strStarts divTextOpen (pyStrip l) = true ∨
             strStarts divOneOpen (pyStrip l) = true ∨
             strStarts divTwoOpen (pyStrip l) = true ∨
             strStarts divThreeOpen (pyStrip l) = true)
    (hnomatch : searchCloseDiv (pyStrip l) = none) :
    processLines styles (l :: rest) = processLines styles rest := by
  rcases hopen with h | h | h | h | h
  · simp [processLines, processLinesF, h, hnomatch]
  · have f1 := strStarts_false_of_excl divTitleOpen divTextOpen (pyStrip l)
      (by decide) (by decide) h
    simp [processLines, processLinesF, h, f1, hnomatch]
  · have f1 := strStarts_false_of_excl divTitleOpen divOneOpen (pyStrip l)
      (by decide) (by decide) h
    have f2 := strStarts_false_of_excl divTextOpen divOneOpen (pyStrip l)
      (by decide) (by decide) h
    simp [processLines, processLinesF, h, f1, f2, hnomatch]
  · have f1 := strStarts_false_of_excl divTitleOpen divTwoOpen (pyStrip l)
      (by decide) (by decide) h
    have f2 := strStarts_false_of_excl divTextOpen divTwoOpen (pyStrip l)
      (by decide) (by decide) h
    have f3 := strStarts_false_of_excl divOneOpen divTwoOpen (pyStrip l)
      (by decide) (by decide) h
    simp [processLines, processLinesF, h, f1, f2, f3, hnomatch]
  · have f1 := strStarts_false_of_excl divTitleOpen divThreeOpen (pyStrip l)
      (by decide) (by decide) h
    have f2 := strStarts_false_of_excl divTextOpen divThreeOpen (pyStrip l)
      (by decide) (by decide) h
    have f3 := strStarts_false_of_excl divOneOpen divThreeOpen (pyStrip l)
      (by decide) (by decide) h
    have f4 := strStarts_false_of_excl divTwoOpen divThreeOpen (pyStrip l)
      (by decide) (by decide) h
    simp [processLines, processLinesF, h, f1, f2, f3, f4, hnomatch]

/-- Witness for C10: a title opener with no `</div>` on the line yields no
block at all. -/
theorem div_opener_without_close_skipped_witness :
    processLines [] ["<div class=\"title\">Oops"] = .ok [] := by
  rw [div_opener_without_close_skipped [] "<div class=\"title\">Oops" []
    (Or.inl (by decide)) (by decide)]
  rfl

/-- Claim C9: a `<table>` region from which zero rows are extracted appends no
table node and raises no error; the walk simply continues after the region. -/
theorem empty_table_region_no_node (styles : List String) (l : String)
    (rest : List String)
    (hopen : strStarts tableOpen (pyStrip l) = true)
    (hempty : extract_table_data (joinNl (splitAtTableEnd rest).1) = []) :
    processLines styles (l :: rest) = processLines styles (splitAtTableEnd rest).2 := by
  have f1 := strStarts_false_of_excl divTitleOpen tableOpen (pyStrip l)
    (by decide) (by decide) hopen
  have f2 := strStarts_false_of_excl divTextOpen tableOpen (pyStrip l)
    (by decide) (by decide) hopen
  have f3 := strStarts_false_of_excl divOneOpen tableOpen (pyStrip l)
    (by decide) (by decide) hopen
  have f4 := strStarts_false_of_excl divTwoOpen tableOpen (pyStrip l)
    (by decide) (by decide) hopen
  have f5 := strStarts_false_of_excl divThreeOpen tableOpen (pyStrip l)
    (by decide) (by decide) hopen
  rw [processLines, processLines]
  simp only [List.length_cons]
  simp only [processLinesF, f1, f2, f3, f4, f5, hopen, hempty, Bool.false_eq_true,
    if_false, if_true]
  exact processLinesF_fuel styles rest.length _ _ (splitAtTableEnd_len rest) le_rfl

/-- Witness for C9: the empty `<table></table>` region produces no node and no
error. -/
theorem empty_table_region_no_node_witness :
    processLines [] ["<table>", "</table>"] = .ok [] := by
  rw [empty_table_region_no_node [] "<table>" ["</table>"] (by decide) (by decide)]
  rfl

/-! ## Invocation-level claims (C1, C6) -/

/-- Claim C1: every invocation yields exactly one message; it is a blob message
carrying the complete built document exactly when validation, merge and build
all succeed, and a single text message (with no blob and no partial document)
whenever validation fails, the merge raises, or the build raises. -/
theorem tool_single_message (tpl : TemplateInput) (mergeOutcome : Except String Unit)
    (styles : List String) (markdown_content : String) :
    (∀ ns, tpl.isZip = true →
      (requiredFiles.all fun f => tpl.entries.contains f) = true →
      mergeOutcome = .ok () →
      processLines styles (mdLines markdown_content) = .ok ns →
      invoke_tool tpl mergeOutcome styles markdown_content = [.blob ns]) ∧
    ((tpl.isZip = false ∨
      (requiredFiles.all fun f => tpl.entries.contains f) = false ∨
      (∃ e, mergeOutcome = .error e) ∨
      (∃ e, processLines styles (mdLines markdown_content) = .error e)) →
      ∃ s, invoke_tool tpl mergeOutcome styles markdown_content = [.text s]) := by
  constructor
  · intro ns h1 h2 h3 h4
    subst h3
    rw [invoke_tool, if_neg (by rw [h1]; simp), if_neg (by rw [h2]; simp)]
    simp [generate_docx_with_template, h4, create_blob_message]
  · intro hfail
    by_cases hz : tpl.isZip = false
    · exact ⟨_, by rw [invoke_tool, if_pos hz]⟩
    · have hz' : tpl.isZip = true := by
        revert hz
        cases tpl.isZip <;> simp
      by_cases hr : (requiredFiles.all fun f => tpl.entries.contains f) = false
      · exact ⟨_, by rw [invoke_tool, if_neg hz, if_pos hr]⟩
      · rcases hfail with h | h | ⟨e, h⟩ | ⟨e, h⟩
        · exact absurd h hz
        · exact absurd h hr
        · subst h
          refine ⟨"生成带模板样式的docx时出错: " ++ "blob must be bytes", ?_⟩
          rw [invoke_tool, if_neg hz, if_neg hr]
          rfl
        · refine ⟨"生成带模板样式的docx时出错: " ++ "blob must be bytes", ?_⟩
          rw [invoke_tool, if_neg hz, if_neg hr]
          cases mergeOutcome with
          | error e' => rfl
          | ok u =>
            cases u
            simp [generate_docx_with_template, h, create_blob_message]

/-- Witness for C1: a valid template with the body style present yields the
single blob message with the built paragraph; a non-ZIP template yields a
single text message. -/
theorem tool_single_message_witness :
    invoke_tool ⟨true, ["[Content_Types].xml", "word/document.xml"]⟩ (.ok ())
        [STYLE_BODY] "hello" = [.blob [.para STYLE_BODY "hello"]] ∧
    ∃ s, invoke_tool ⟨false, []⟩ (.ok ()) [] "x" = [.text s] :=
  ⟨(tool_single_message ⟨true, ["[Content_Types].xml", "word/document.xml"]⟩ (.ok ())
      [STYLE_BODY] "hello").1 [.para STYLE_BODY "hello"] rfl (by decide) rfl (by rfl),
   (tool_single_message ⟨false, []⟩ (.ok ()) [] "x").2 (Or.inl rfl)⟩

/-- Claim C6: a template that is not a ZIP archive or lacks one of the two
required parts is rejected with a single text message, zero blob messages, and
the outcome does not depend on the merge or build at all (no processing has
started). -/
theorem invalid_template_rejected_before_processing (tpl : TemplateInput)
    (h : tpl.isZip = false ∨
      (requiredFiles.all fun f => tpl.entries.contains f) = false) :
    ∀ (mergeOutcome mergeOutcome' : Except String Unit)
      (styles styles' : List String) (markdown_content markdown_content' : String),
      (∃ s, invoke_tool tpl mergeOutcome styles markdown_content = [.text s]) ∧
      invoke_tool tpl mergeOutcome styles markdown_content =
        invoke_tool tpl mergeOutcome' styles' markdown_content' := by
  intro mo mo' st st' md md'
  by_cases hz : tpl.isZip = false
  · exact ⟨⟨_, by rw [invoke_tool, if_pos hz]⟩,
      by rw [invoke_tool, if_pos hz, invoke_tool, if_pos hz]⟩
  · have hr : (requiredFiles.all fun f => tpl.entries.contains f) = false := by
      rcases h with h | h
      · exact absurd h hz
      · exact h
    exact ⟨⟨_, by rw [invoke_tool, if_neg hz, if_pos hr]⟩,
      by rw [invoke_tool, if_neg hz, if_pos hr, invoke_tool, if_neg hz, if_pos hr]⟩

/-- Witness for C6: a valid ZIP missing `word/document.xml` is rejected with a
text message, and the rejection is independent of merge outcome, styles and
markdown. -/
theorem invalid_template_rejected_before_processing_witness :
    (∃ s, invoke_tool ⟨true, ["[Content_Types].xml"]⟩ (.ok ()) [] "x" = [.text s]) ∧
    invoke_tool ⟨true, ["[Content_Types].xml"]⟩ (.ok ()) [] "x" =
      invoke_tool ⟨true, ["[Content_Types].xml"]⟩ (.error "boom") [STYLE_BODY] "y" :=
  invalid_template_rejected_before_processing ⟨true, ["[Content_Types].xml"]⟩
    (Or.inr (by decide)) (.ok ()) (.error "boom") [] [STYLE_BODY] "x" "y"
